import Mathlib

/-!
Verification of the tabular pipeline in `src/analytics.py` (pandas script).

Shallow embedding conventions:
* A DataFrame is a `List` of row structures; row order is list order.
* Numbers (`cantidad`, `precio` and derived aggregates) are modelled as `ℚ`
  (the script uses Python/NumPy numerics; no claim depends on rounding).
* Nullable cells (pandas `NaN` in an object column) are modelled as
  `Option String` with `none` for `NaN`.  Pandas semantics mirrored here:
  `NaN == "Norte"` is `False`, `NaN.isin(...)` is `False`,
  `groupby` drops `NaN` group keys, and `NaN <= 3` is `False`.
* `pd.merge(..., how="left", on="region")` emits, for each left row in
  order, one row per matching right row (right order preserved), or a
  single row with `NaN` right-side fields when nothing matches.
* `rank(method="dense", ascending=False)` within a partition assigns to a
  row `1 +` the number of *distinct* values in the partition strictly
  greater than the row's value.
* `groupby(["region","categoria"])` emits one group per distinct key; the
  script's group order (pandas sorts keys) is not relied on by any claim,
  so distinct keys are taken via `List.dedup`.
-/

/-- A row of the sales CSV (`data/ventas.csv`): columns `region`,
`categoria`, `cantidad`, `precio`, `fecha`.  `region`/`categoria` can be
missing (`NaN` ⇒ `none`). -/
structure Venta where
  region    : Option String
  categoria : Option String
  cantidad  : ℚ
  precio    : ℚ
  fecha     : String
deriving DecidableEq, Repr

/-- A row of `df_filtrado` after line 78: a `Venta` plus the derived
column `venta_total`. -/
structure VentaFiltrada where
  region      : Option String
  categoria   : Option String
  cantidad    : ℚ
  precio      : ℚ
  fecha       : String
  venta_total : ℚ
deriving DecidableEq, Repr

/-- A row of the output of `transformar_datos` (lines 81–84):
`region`, `categoria`, `total_ventas`, `promedio_precio`. -/
structure VentaAgregada where
  region          : Option String
  categoria       : Option String
  total_ventas    : ℚ
  promedio_precio : ℚ
deriving DecidableEq, Repr

/-- A row of the customers JSON: the join/partition keys `region` and
`segmento` plus a representative further attribute (`nombre`) standing
for the columns the pipeline never inspects. -/
structure Cliente where
  region   : Option String
  segmento : Option String
  nombre   : String
deriving DecidableEq, Repr

/-- A row of `merged` (line 112): left (aggregated-sales) fields plus the
customer fields, which are `none` when the left row had no match. -/
structure Fusionada where
  region          : Option String
  categoria       : Option String
  total_ventas    : ℚ
  promedio_precio : ℚ
  segmento        : Option String
  nombre          : Option String
deriving DecidableEq, Repr

/-- A row of `merged` after line 115–118: a `Fusionada` plus the window
column `rank_ventas` (float in pandas; `none` models the `NaN` rank that
rows with a `NaN` `segmento` receive, since `groupby` drops them). -/
structure Clasificada where
  fila        : Fusionada
  rank_ventas : Option ℕ
deriving DecidableEq, Repr

-- Module-level configuration (lines 8–18).

def REGION_FILTRO : String := "Norte"

def CATEGORIAS_VALIDAS : List String := ["Tecnología", "Periféricos", "Software"]

/-- Line 14–18: the currency table.  Never read by any other definition. -/
def TASAS_CAMBIO : List (String × ℚ) := [("USD", 1), ("EUR", 17/20), ("CLP", 900)]

/-- Line 74: `(df["region"] == REGION_FILTRO) & (df["categoria"].isin(CATEGORIAS_VALIDAS))`
for one row.  A `NaN` cell fails both the equality and the membership test. -/
def mask (region : String) (cats : List String) (v : Venta) : Bool :=
  (v.region == some region) && (v.categoria.any fun c => cats.contains c)

/-- Line 78: append the derived column `venta_total = cantidad * precio`. -/
def conVentaTotal (v : Venta) : VentaFiltrada :=
  ⟨v.region, v.categoria, v.cantidad, v.precio, v.fecha, v.cantidad * v.precio⟩

/-- Lines 74–75: the row selection `df.loc[mask]` alone. -/
def filtrar (df : List Venta) (region : String) (cats : List String) : List Venta :=
  df.filter (mask region cats)

/-- Lines 74–78: filtered rows with the derived column appended. -/
def df_filtrado (df : List Venta) (region : String) (cats : List String) :
    List VentaFiltrada :=
  (filtrar df region cats).map conVentaTotal

/-- The composite grouping key of line 81. -/
def clave (r : VentaFiltrada) : Option String × Option String :=
  (r.region, r.categoria)

/-- The summary row of one group (lines 82–83):
`total_ventas = sum(venta_total)` and `promedio_precio = mean(precio)`
over the rows of `rows` whose key is `k`. -/
def filaGrupo (rows : List VentaFiltrada) (k : Option String × Option String) :
    VentaAgregada :=
  let grupo := rows.filter fun r => clave r == k
  { region          := k.1
    categoria       := k.2
    total_ventas    := (grupo.map VentaFiltrada.venta_total).sum
    promedio_precio := (grupo.map VentaFiltrada.precio).sum / grupo.length }

/-- Lines 81–84: group by `(region, categoria)`, one summary row per
distinct key. -/
def agrupar (rows : List VentaFiltrada) : List VentaAgregada :=
  ((rows.map clave).dedup).map (filaGrupo rows)

/-- `transformar_datos` (lines 58–86) with the module constants made
explicit parameters. -/
def transformar_datos_param (df : List Venta) (region : String)
    (cats : List String) : List VentaAgregada :=
  agrupar (df_filtrado df region cats)

/-- `transformar_datos` (lines 58–86) as the script runs it, at the
module constants `REGION_FILTRO` and `CATEGORIAS_VALIDAS`. -/
def transformar_datos (df : List Venta) : List VentaAgregada :=
  transformar_datos_param df REGION_FILTRO CATEGORIAS_VALIDAS

/-- The right-side matches of one left row under `on="region"`
(exact key equality; pandas `merge` also pairs `NaN` with `NaN`). -/
def coincidencias (clientes : List Cliente) (v : VentaAgregada) : List Cliente :=
  clientes.filter fun c => c.region == v.region

/-- The join output rows produced by one left row (line 112):
one per match, or a single all-`none`-right-side row if none match. -/
def expandir (clientes : List Cliente) (v : VentaAgregada) : List Fusionada :=
  match coincidencias clientes v with
  | [] => [⟨v.region, v.categoria, v.total_ventas, v.promedio_precio, none, none⟩]
  | ms => ms.map fun c =>
      ⟨v.region, v.categoria, v.total_ventas, v.promedio_precio, c.segmento, some c.nombre⟩

/-- Line 112: `pd.merge(ventas, clientes, how="left", on="region")`. -/
def merged (ventas : List VentaAgregada) (clientes : List Cliente) :
    List Fusionada :=
  ventas.flatMap (expandir clientes)

/-- Dense rank, descending: `1 +` the number of distinct values of the
partition strictly above `x`. -/
def rank_denso (part : List ℚ) (x : ℚ) : ℕ :=
  1 + ((part.filter fun y => x < y).dedup).length

/-- The rank cell of one row of `merged` (lines 115–118): the dense rank
of its `total_ventas` among the rows of `m` sharing its `segmento`, or
`none` when `segmento` is `NaN` (`groupby` drops those rows, leaving a
`NaN` rank). -/
def rankFila (m : List Fusionada) (r : Fusionada) : Clasificada :=
  match r.segmento with
  | none => ⟨r, none⟩
  | some s =>
      let part := (m.filter fun r2 => r2.segmento == some s).map Fusionada.total_ventas
      ⟨r, some (rank_denso part r.total_ventas)⟩

/-- Lines 115–118: `merged.groupby("segmento")["total_ventas"].rank(method="dense",
ascending=False)` appended as `rank_ventas`. -/
def conRank (ventas : List VentaAgregada) (clientes : List Cliente) :
    List Clasificada :=
  let m := merged ventas clientes
  m.map (rankFila m)

/-- Line 121: `merged[merged["rank_ventas"] <= 3]`.  In pandas a `NaN`
rank compares `False` against `3`, so `none`-ranked rows are dropped. -/
def rankLe3 (r : Clasificada) : Bool :=
  match r.rank_ventas with
  | some k => k ≤ 3
  | none   => false

/-- `analizar_clientes` (lines 94–123). -/
def analizar_clientes (ventas : List VentaAgregada) (clientes : List Cliente) :
    List Clasificada :=
  (conRank ventas clientes).filter rankLe3

/-- The whole core pipeline (lines 140 and 147) run with the module
constant `TASAS_CAMBIO` set to `tasas`.  No pipeline code reads the
currency table, which is why `tasas` occurs nowhere on the right-hand
side: that absence is exactly what claim C9 asserts. -/
def pipelineConTasas (tasas : List (String × ℚ)) (ventas : List Venta)
    (clientes : List Cliente) : List VentaAgregada × List Clasificada :=
  let _ := tasas
  let df_ventas := transformar_datos ventas
  (df_ventas, analizar_clientes df_ventas clientes)

/-- `transformar_datos` in explicit state-passing form, tracking the
argument frame: returns (state of the argument `df` after the call,
returned value).  Line 75 ends in `.copy()`, so `df_filtrado` is an
independent frame and the in-place column assignment of line 78 updates
`df_filtrado` only; no statement writes into `df`. -/
def transformar_datos_mem (df : List Venta) :
    List Venta × List VentaAgregada :=
  -- lines 74–75: read `df`, build the fresh copy `df_filtrado`
  let df_filtrado0 := df.filter (mask REGION_FILTRO CATEGORIAS_VALIDAS)
  -- line 78: mutate the copy (the only in-place write in the function)
  let df_filtrado1 := df_filtrado0.map conVentaTotal
  -- lines 81–84: `groupby(...).agg(...).reset_index()` allocates a new frame
  (df, agrupar df_filtrado1)

/-- The grouping key of a raw sales row (the pair filtered rows are
grouped by at line 81). -/
def claveVenta (v : Venta) : Option String × Option String :=
  (v.region, v.categoria)

/-- The left-hand (aggregated-sales) fields of a joined row. -/
def parteIzq (r : Fusionada) : VentaAgregada :=
  ⟨r.region, r.categoria, r.total_ventas, r.promedio_precio⟩

/-- The partition of the ranked table for segment `s`. -/
def particion (ventas : List VentaAgregada) (clientes : List Cliente)
    (s : String) : List Clasificada :=
  (conRank ventas clientes).filter fun r => r.fila.segmento == some s

-- Concrete tables used by the closed parts of the claims.

/-- The sales table of the spec's first concrete scenario. -/
def dfEscenario : List Venta :=
  [⟨some "Norte", some "Tecnología", 2, 100, "d1"⟩,
   ⟨some "Norte", some "Tecnología", 1, 50, "d2"⟩,
   ⟨some "Sur", some "Software", 1, 10, "d3"⟩]

/-- The aggregated row the spec's first concrete scenario produces. -/
def filaEscenario : VentaAgregada :=
  ⟨some "Norte", some "Tecnología", 250, 75⟩

/-- Five aggregated rows of one region with totals 100, 90, 80, 80, 70:
under one customer of segment "A" they rank 1, 2, 3, 3, 4. -/
def ventasEmpate : List VentaAgregada :=
  [⟨some "N", some "a", 100, 1⟩, ⟨some "N", some "b", 90, 1⟩,
   ⟨some "N", some "c", 80, 1⟩, ⟨some "N", some "d", 80, 1⟩,
   ⟨some "N", some "e", 70, 1⟩]

/-- One customer in the region of `ventasEmpate`, segment "A". -/
def clientesEmpate : List Cliente :=
  [⟨some "N", some "A", "x"⟩]

/-- An aggregated row whose region matches no customer. -/
def ventasSinCliente : List VentaAgregada :=
  [⟨some "Norte", some "Tecnología", 250, 75⟩]

/-- A sales row whose `region` cell is missing (`NaN`). -/
def ventaSinRegion : Venta :=
  ⟨none, some "Tecnología", 2, 100, "2024-01-01"⟩

/-- Two customers sharing one region, distinct segments. -/
def clientesDos : List Cliente :=
  [⟨some "Norte", some "A", "c1"⟩, ⟨some "Norte", some "B", "c2"⟩]

-- Helper lemmas shared by several claims.

/-- The Boolean mask of line 74 agrees with its propositional reading. -/
theorem mask_eq_decide (region : String) (cats : List String) (v : Venta) :
    mask region cats v
      = decide (v.region = some region ∧ ∃ c ∈ cats, v.categoria = some c) := by
  apply Bool.eq_iff_iff.mpr
  cases hc : v.categoria <;>
    simp [mask, hc, exists_eq_right']

/-- Adding the window column leaves the joined fields untouched. -/
theorem rankFila_fila (m : List Fusionada) (r : Fusionada) :
    (rankFila m r).fila = r := by
  cases h : r.segmento <;> simp [rankFila, h]

/-- A row with a `NaN` segment receives a `NaN` rank. -/
theorem rankFila_none (m : List Fusionada) (r : Fusionada)
    (h : r.segmento = none) : (rankFila m r).rank_ventas = none := by
  simp [rankFila, h]

/-- A row with segment `s` is ranked by `rank_denso` over its partition. -/
theorem rankFila_some (m : List Fusionada) (r : Fusionada) (s : String)
    (h : r.segmento = some s) :
    rankFila m r
      = ⟨r, some (rank_denso
          ((m.filter fun r2 => r2.segmento == some s).map Fusionada.total_ventas)
          r.total_ventas)⟩ := by
  simp [rankFila, h]

-- Claims.

/-- C4: the filter/derive stage keeps exactly the rows whose `region`
equals the target (exact, case-sensitive equality) and whose `categoria`
is in the allowed set, in input order (it is a sublist of the input),
appending `venta_total = cantidad * precio`; an empty category set gives
an empty table. -/
theorem c4_filtro_deriva_exacto (df : List Venta) (region : String)
    (cats : List String) :
    df_filtrado df region cats
      = (df.filter fun v =>
          decide (v.region = some region ∧ ∃ c ∈ cats, v.categoria = some c)).map
            conVentaTotal
    ∧ List.Sublist (filtrar df region cats) df
    ∧ (∀ r ∈ df_filtrado df region cats, r.venta_total = r.cantidad * r.precio)
    ∧ (cats = [] → df_filtrado df region cats = []) := by
  refine ⟨?_, List.filter_sublist df, ?_, ?_⟩
  · unfold df_filtrado filtrar
    congr 1
    exact List.filter_congr fun v _ => mask_eq_decide region cats v
  · intro r hr
    rcases List.mem_map.mp hr with ⟨v, _, rfl⟩
    rfl
  · intro h
    subst h
    simp only [df_filtrado, filtrar, List.map_eq_nil_iff, List.filter_eq_nil_iff]
    intro v _
    rw [mask_eq_decide]
    simp

/-- C5: a ranked row is retained by the top-N stage iff its rank is a
number `≤ 3`; with totals 100, 90, 80, 80, 70 tied at the boundary, the
single segment-"A" partition retains 4 rows (ranks 1, 2, 3, 3). -/
theorem c5_top3_si_y_solo_si_rank_le_3 (ventas : List VentaAgregada)
    (clientes : List Cliente) :
    (∀ r : Clasificada, r ∈ analizar_clientes ventas clientes ↔
        (r ∈ conRank ventas clientes ∧ ∃ k, r.rank_ventas = some k ∧ k ≤ 3))
    ∧ (analizar_clientes ventasEmpate clientesEmpate).map
        (fun r => (r.fila.total_ventas, r.rank_ventas))
        = [(100, some 1), (90, some 2), (80, some 3), (80, some 3)] := by
  refine ⟨?_, by decide⟩
  intro r
  unfold analizar_clientes
  rw [List.mem_filter]
  constructor
  · rintro ⟨h1, h2⟩
    refine ⟨h1, ?_⟩
    rcases hk : r.rank_ventas with _ | k
    · rw [rankLe3, hk] at h2
      cases h2
    · rw [rankLe3, hk] at h2
      exact ⟨k, rfl, by simpa using h2⟩
  · rintro ⟨h1, k, hk, hk3⟩
    refine ⟨h1, ?_⟩
    rw [rankLe3, hk]
    simpa using hk3

/-- C6: a joined row with a `NaN` segment gets a `NaN` rank, so it never
reaches the top-customers output, although the join emits it: with one
aggregated region and no customers, `merged` holds one `none`-segment
row and the output is empty. -/
theorem c6_segmento_nulo_excluido (ventas : List VentaAgregada)
    (clientes : List Cliente) :
    (∀ r ∈ conRank ventas clientes, r.fila.segmento = none → r.rank_ventas = none)
    ∧ (∀ r ∈ analizar_clientes ventas clientes, r.fila.segmento ≠ none)
    ∧ (merged ventasSinCliente []).map Fusionada.segmento = [none]
    ∧ analizar_clientes ventasSinCliente [] = [] := by
  have h1 : ∀ r ∈ conRank ventas clientes,
      r.fila.segmento = none → r.rank_ventas = none := by
    intro r hr hseg
    rcases List.mem_map.mp hr with ⟨r2, _, rfl⟩
    rw [rankFila_fila] at hseg
    exact rankFila_none _ r2 hseg
  refine ⟨h1, ?_, by decide, by decide⟩
  intro r hr hseg
  rcases List.mem_filter.mp hr with ⟨h2, h3⟩
  simp [rankLe3, h1 r h2 hseg] at h3

/-- C7: the region/category row filter of line 74–75 is idempotent:
filtering an already-filtered table with the same predicate returns it
unchanged, rows and order alike. -/
theorem c7_filtrado_idempotente (df : List Venta) (region : String)
    (cats : List String) :
    filtrar (filtrar df region cats) region cats = filtrar df region cats := by
  simp [filtrar, List.filter_filter]

/-- C8: a sales row whose required `region` cell is missing does not make
the pipeline fail: line 74 evaluates `NaN == "Norte"` to `False`, so the
row is silently excluded by the filter and `transformar_datos` returns
an (here empty) aggregate with no error raised — against the spec's
fail-fast requirement for missing keys. -/
theorem c8_clave_faltante_sin_error :
    filtrar [ventaSinRegion] REGION_FILTRO CATEGORIAS_VALIDAS = []
    ∧ transformar_datos [ventaSinRegion] = [] := by
  exact ⟨by decide, by decide⟩

/-- C9: the currency table is dead configuration: the pipeline outputs
are identical under any two valuations of the rate table, and running it
at `TASAS_CAMBIO` itself is just `transformar_datos` followed by
`analizar_clientes`. -/
theorem c9_tasas_cambio_config_muerta (t1 t2 : List (String × ℚ))
    (ventas : List Venta) (clientes : List Cliente) :
    pipelineConTasas t1 ventas clientes = pipelineConTasas t2 ventas clientes
    ∧ pipelineConTasas TASAS_CAMBIO ventas clientes
        = (transformar_datos ventas,
           analizar_clientes (transformar_datos ventas) clientes) :=
  ⟨rfl, rfl⟩

/-- C10: in the state-passing reading of `transformar_datos`, the
argument frame is returned unchanged (line 75's `.copy()` confines the
in-place write of line 78 to the copy) and the value computed is the
usual output. -/
theorem c10_transformar_datos_sin_mutar (df : List Venta) :
    (transformar_datos_mem df).1 = df
    ∧ (transformar_datos_mem df).2 = transformar_datos df :=
  ⟨rfl, rfl⟩

/-- Every join output row produced by a left row carries that row's
left-hand fields. -/
theorem parteIzq_expandir (clientes : List Cliente) (v : VentaAgregada) :
    ∀ r ∈ expandir clientes v, parteIzq r = v := by
  intro r hr
  unfold expandir at hr
  rcases h : coincidencias clientes v with _ | ⟨c, ms⟩ <;> rw [h] at hr
  · simp at hr
    subst hr
    rfl
  · rcases List.mem_map.mp hr with ⟨c2, _, rfl⟩
    rfl

/-- One left row becomes one output row without matches, and one per
match otherwise. -/
theorem length_expandir (clientes : List Cliente) (v : VentaAgregada) :
    (expandir clientes v).length
      = if (coincidencias clientes v).length = 0 then 1
        else (coincidencias clientes v).length := by
  unfold expandir
  rcases h : coincidencias clientes v with _ | ⟨c, ms⟩ <;> simp [h]

/-- A left row always produces at least one output row. -/
theorem expandir_ne_nil (clientes : List Cliente) (v : VentaAgregada) :
    0 < (expandir clientes v).length := by
  rw [length_expandir]
  split
  · exact Nat.one_pos
  · next h => exact Nat.pos_of_ne_zero h

/-- Selecting the join rows of a left row `v` from the block of a left
row `x` keeps the whole block when `x = v` and nothing otherwise. -/
theorem filter_expandir_eq (clientes : List Cliente) (v x : VentaAgregada) :
    (expandir clientes x).filter (fun r => parteIzq r == v)
      = if x = v then expandir clientes x else [] := by
  split
  · next hxv =>
      subst hxv
      refine List.filter_eq_self.mpr fun r hr => ?_
      rw [parteIzq_expandir clientes x r hr]
      exact beq_self_eq_true x
  · next hxv =>
      refine List.filter_eq_nil_iff.mpr fun r hr => ?_
      rw [parteIzq_expandir clientes x r hr]
      simp
      exact fun h => hxv h

/-- The join output rows belonging to a left row `v` number
`(occurrences of v) * (block size of v)`. -/
theorem length_filter_merged (ventas : List VentaAgregada)
    (clientes : List Cliente) (v : VentaAgregada) :
    ((merged ventas clientes).filter fun r => parteIzq r == v).length
      = ventas.count v * (expandir clientes v).length := by
  induction ventas with
  | nil => simp [merged]
  | cons x vs ih =>
      rw [merged, List.flatMap_cons, List.filter_append, List.length_append]
      rw [filter_expandir_eq, List.count_cons]
      by_cases hxv : x = v
      · subst hxv
        rw [merged] at ih
        simp [ih]
        ring
      · rw [merged] at ih
        simp [hxv, ih]

/-- C3: the left join drops no left row: each left row appears in the
join output; its output rows number one per occurrence when nothing
matches (then with null customer fields) and one per match per
occurrence otherwise (fan-out preserved). -/
theorem c3_join_preserva_izquierda (ventas : List VentaAgregada)
    (clientes : List Cliente) (v : VentaAgregada) (hv : v ∈ ventas) :
    ((merged ventas clientes).filter fun r => parteIzq r == v) ≠ []
    ∧ ((merged ventas clientes).filter fun r => parteIzq r == v).length
        = ventas.count v *
          (if (coincidencias clientes v).length = 0 then 1
           else (coincidencias clientes v).length)
    ∧ (coincidencias clientes v = [] →
        ∀ r ∈ (merged ventas clientes).filter fun r => parteIzq r == v,
          r.segmento = none ∧ r.nombre = none) := by
  have hlen := length_filter_merged ventas clientes v
  have hcount : 0 < ventas.count v := List.count_pos_iff.mpr hv
  refine ⟨?_, by rw [hlen, length_expandir], ?_⟩
  · have hpos : 0 < ((merged ventas clientes).filter
        fun r => parteIzq r == v).length := by
      rw [hlen]
      exact Nat.mul_pos hcount (expandir_ne_nil clientes v)
    exact (List.length_pos.mp hpos)
  · intro hco r hr
    rcases List.mem_filter.mp hr with ⟨hmem, hbeq⟩
    rcases List.mem_flatMap.mp hmem with ⟨x, hx, hrx⟩
    have hpx : parteIzq r = x := parteIzq_expandir clientes x r hrx
    have hxv : x = v := by
      have h2 : parteIzq r = v := by simpa using hbeq
      rw [hpx] at h2
      exact h2
    subst hxv
    simp [expandir, hco] at hrx
    subst hrx
    exact ⟨rfl, rfl⟩

/-- Witness for C3: the one aggregated "Norte" row joined against two
"Norte" customers is kept with multiplicity two. -/
theorem c3_join_preserva_izquierda_witness :
    ((merged ventasSinCliente clientesDos).filter
        fun r => parteIzq r == filaEscenario) ≠ []
    ∧ ((merged ventasSinCliente clientesDos).filter
        fun r => parteIzq r == filaEscenario).length
        = ventasSinCliente.count filaEscenario *
          (if (coincidencias clientesDos filaEscenario).length = 0 then 1
           else (coincidencias clientesDos filaEscenario).length)
    ∧ (coincidencias clientesDos filaEscenario = [] →
        ∀ r ∈ (merged ventasSinCliente clientesDos).filter
            fun r => parteIzq r == filaEscenario,
          r.segmento = none ∧ r.nombre = none) :=
  c3_join_preserva_izquierda ventasSinCliente clientesDos filaEscenario (by decide)

/-- The group, reconstructed independently at raw-row level: the
filtered sales rows carrying key `k`. -/
def grupoFiltrado (df : List Venta) (k : Option String × Option String) :
    List Venta :=
  (filtrar df REGION_FILTRO CATEGORIAS_VALIDAS).filter fun v => claveVenta v == k

/-- The keys of the aggregate are the distinct keys of its input. -/
theorem claves_agrupar (rows : List VentaFiltrada) :
    (agrupar rows).map (fun o => (o.region, o.categoria)) = (rows.map clave).dedup := by
  unfold agrupar
  rw [List.map_map]
  exact List.map_id'' (fun k => rfl) _

/-- The group of key `k` inside `df_filtrado` is the raw-level group
with the derived column appended. -/
theorem grupo_df_filtrado (df : List Venta) (k : Option String × Option String) :
    (df_filtrado df REGION_FILTRO CATEGORIAS_VALIDAS).filter (fun r => clave r == k)
      = (grupoFiltrado df k).map conVentaTotal := by
  unfold df_filtrado grupoFiltrado
  exact List.filter_map conVentaTotal _

/-- C1: the aggregator emits one row per distinct (region, categoria)
pair of the filtered table — keys are distinct and range over exactly
the filtered keys — and each row's `total_ventas` is the sum of
`cantidad * precio` and its `promedio_precio` the mean of `precio` over
exactly the (nonempty) filtered group sharing its key. -/
theorem c1_agregado_sumas_y_promedio (df : List Venta) :
    ((transformar_datos df).map fun o => (o.region, o.categoria)).Nodup
    ∧ (∀ k, (k ∈ (transformar_datos df).map fun o => (o.region, o.categoria)) ↔
          k ∈ (filtrar df REGION_FILTRO CATEGORIAS_VALIDAS).map claveVenta)
    ∧ ∀ o ∈ transformar_datos df,
        grupoFiltrado df (o.region, o.categoria) ≠ []
        ∧ o.total_ventas
            = ((grupoFiltrado df (o.region, o.categoria)).map
                fun v => v.cantidad * v.precio).sum
        ∧ o.promedio_precio
            = ((grupoFiltrado df (o.region, o.categoria)).map Venta.precio).sum
              / (grupoFiltrado df (o.region, o.categoria)).length := by
  have hkeys : (df_filtrado df REGION_FILTRO CATEGORIAS_VALIDAS).map clave
      = (filtrar df REGION_FILTRO CATEGORIAS_VALIDAS).map claveVenta := by
    unfold df_filtrado
    rw [List.map_map]
    rfl
  have h1 : (transformar_datos df).map (fun o => (o.region, o.categoria))
      = ((filtrar df REGION_FILTRO CATEGORIAS_VALIDAS).map claveVenta).dedup := by
    rw [transformar_datos, transformar_datos_param, claves_agrupar, hkeys]
  refine ⟨?_, ?_, ?_⟩
  · rw [h1]
    exact List.nodup_dedup _
  · intro k
    rw [h1]
    exact List.mem_dedup
  · intro o ho
    rcases List.mem_map.mp ho with ⟨k, hk, rfl⟩
    have hko : ((filaGrupo (df_filtrado df REGION_FILTRO CATEGORIAS_VALIDAS) k).region,
        (filaGrupo (df_filtrado df REGION_FILTRO CATEGORIAS_VALIDAS) k).categoria) = k := rfl
    rw [hko]
    have hgrupo := grupo_df_filtrado df k
    refine ⟨?_, ?_, ?_⟩
    · have hk2 : k ∈ (df_filtrado df REGION_FILTRO CATEGORIAS_VALIDAS).map clave :=
        List.mem_dedup.mp hk
      rcases List.mem_map.mp hk2 with ⟨r, hr, hrk⟩
      intro hnil
      rw [hnil, List.map_nil] at hgrupo
      have hmem : r ∈ (df_filtrado df REGION_FILTRO CATEGORIAS_VALIDAS).filter
          (fun r => clave r == k) := by
        rw [List.mem_filter]
        exact ⟨hr, by simp [hrk]⟩
      rw [hgrupo] at hmem
      cases hmem
    · simp only [filaGrupo]
      rw [hgrupo, List.map_map]
      rfl
    · simp only [filaGrupo]
      rw [hgrupo, List.map_map, List.length_map]
      rfl

/-- Witness for C1: on the spec's concrete scenario the "Norte ×
Tecnología" output row sums to 250 over its two contributing rows and
averages their prices to 75. -/
theorem c1_agregado_sumas_y_promedio_witness :
    filaEscenario ∈ transformar_datos dfEscenario
    ∧ grupoFiltrado dfEscenario (filaEscenario.region, filaEscenario.categoria) ≠ []
    ∧ filaEscenario.total_ventas
        = ((grupoFiltrado dfEscenario
            (filaEscenario.region, filaEscenario.categoria)).map
            fun v => v.cantidad * v.precio).sum
    ∧ filaEscenario.promedio_precio
        = ((grupoFiltrado dfEscenario
            (filaEscenario.region, filaEscenario.categoria)).map Venta.precio).sum
          / (grupoFiltrado dfEscenario
              (filaEscenario.region, filaEscenario.categoria)).length := by
  have h := (c1_agregado_sumas_y_promedio dfEscenario).2.2 filaEscenario
    (by with_unfolding_all decide)
  exact ⟨by with_unfolding_all decide, h.1, h.2.1, h.2.2⟩

/-- The dense rank counts the distinct values strictly above `x`, read
on the finset of partition values. -/
theorem rank_denso_eq_card (T : List ℚ) (x : ℚ) :
    rank_denso T x = 1 + (T.toFinset.filter fun y => x < y).card := by
  rw [rank_denso, ← List.card_toFinset, List.toFinset_filter]
  congr 2
  apply Finset.filter_congr
  intro y _
  simp

/-- Counting the values above a point is strictly antitone on the
partition values. -/
theorem card_mayores_lt (D : Finset ℚ) {x y : ℚ} (hy : y ∈ D) (hxy : x < y) :
    (D.filter fun z => y < z).card < (D.filter fun z => x < z).card := by
  apply Finset.card_lt_card
  have hsub : (D.filter fun z => y < z) ⊆ (D.filter fun z => x < z) := by
    intro z hz
    rw [Finset.mem_filter] at hz ⊢
    exact ⟨hz.1, lt_trans hxy hz.2⟩
  rw [Finset.ssubset_iff_of_subset hsub]
  refine ⟨y, Finset.mem_filter.mpr ⟨hy, hxy⟩, fun hmem => ?_⟩
  exact absurd (Finset.mem_filter.mp hmem).2 (lt_irrefl y)

/-- Hence it is injective on the partition values. -/
theorem card_mayores_injOn (D : Finset ℚ) :
    Set.InjOn (fun x => (D.filter fun z => x < z).card) D := by
  intro x hx y hy hxy
  change (D.filter fun z => x < z).card = (D.filter fun z => y < z).card at hxy
  rcases lt_trichotomy x y with h | h | h
  · exact absurd hxy (Nat.ne_of_gt (card_mayores_lt D hy h))
  · exact h
  · exact absurd hxy (Nat.ne_of_lt (card_mayores_lt D hx h))

/-- A value of the partition has fewer values above it than the
partition has distinct values. -/
theorem card_mayores_lt_card (D : Finset ℚ) {x : ℚ} (hx : x ∈ D) :
    (D.filter fun z => x < z).card < D.card := by
  apply Finset.card_lt_card
  rw [Finset.ssubset_iff_of_subset (Finset.filter_subset _ _)]
  refine ⟨x, hx, fun hmem => ?_⟩
  exact absurd (Finset.mem_filter.mp hmem).2 (lt_irrefl x)

/-- Over the distinct partition values the above-count takes exactly the
values `0, …, m-1`. -/
theorem card_mayores_image (D : Finset ℚ) :
    D.image (fun x => (D.filter fun z => x < z).card) = Finset.range D.card := by
  apply Finset.eq_of_subset_of_card_le
  · intro k hk
    rcases Finset.mem_image.mp hk with ⟨x, hx, rfl⟩
    rw [Finset.mem_range]
    exact card_mayores_lt_card D hx
  · rw [Finset.card_range, Finset.card_image_of_injOn (card_mayores_injOn D)]

/-- The dense ranks assigned over a partition are exactly
`{1, …, number of distinct values}`: no gaps, no skips. -/
theorem rank_denso_surj (T : List ℚ) (k : ℕ) :
    (∃ x ∈ T, rank_denso T x = k) ↔ 1 ≤ k ∧ k ≤ T.dedup.length := by
  have hcard := List.card_toFinset T
  constructor
  · rintro ⟨x, hx, rfl⟩
    rw [rank_denso_eq_card]
    have := card_mayores_lt_card T.toFinset (List.mem_toFinset.mpr hx)
    omega
  · rintro ⟨h1, h2⟩
    have hk : k - 1 ∈ Finset.range T.toFinset.card := by
      rw [Finset.mem_range]
      omega
    rw [← card_mayores_image] at hk
    rcases Finset.mem_image.mp hk with ⟨x, hx, hcx⟩
    refine ⟨x, List.mem_toFinset.mp hx, ?_⟩
    rw [rank_denso_eq_card, hcx]
    omega

/-- Dense rank 1 characterises the partition maxima. -/
theorem rank_denso_eq_one (T : List ℚ) (x : ℚ) :
    rank_denso T x = 1 ↔ ∀ y ∈ T, y ≤ x := by
  rw [rank_denso_eq_card]
  constructor
  · intro h y hy
    by_contra hlt
    push_neg at hlt
    have hmem : y ∈ T.toFinset.filter (fun z => x < z) :=
      Finset.mem_filter.mpr ⟨List.mem_toFinset.mpr hy, hlt⟩
    have := Finset.card_pos.mpr ⟨y, hmem⟩
    omega
  · intro h
    have hvacio : T.toFinset.filter (fun z => x < z) = ∅ := by
      apply Finset.filter_eq_empty_iff.mpr
      intro y hy
      exact not_lt.mpr (h y (List.mem_toFinset.mp hy))
    rw [hvacio]
    simp

/-- The segment-`s` partition of the ranked table is the segment-`s`
part of the join, each row carrying the dense rank of its total within
that part. -/
theorem particion_eq (ventas : List VentaAgregada) (clientes : List Cliente)
    (s : String) :
    particion ventas clientes s
      = ((merged ventas clientes).filter fun r => r.segmento == some s).map
          (fun r => ⟨r, some (rank_denso
            (((merged ventas clientes).filter fun r2 => r2.segmento == some s).map
              Fusionada.total_ventas) r.total_ventas)⟩) := by
  unfold particion conRank
  rw [List.filter_map]
  have hpf : ((fun r : Clasificada => r.fila.segmento == some s)
        ∘ rankFila (merged ventas clientes))
      = fun r => r.segmento == some s := by
    funext r
    simp only [Function.comp, rankFila_fila]
  rw [hpf]
  apply List.map_congr_left
  intro r hr
  have hs : r.segmento = some s := by
    have h2 := (List.mem_filter.mp hr).2
    simpa using h2
  exact rankFila_some _ r s hs

/-- The totals read off the ranked partition are those of the joined
partition. -/
theorem totales_particion (ventas : List VentaAgregada) (clientes : List Cliente)
    (s : String) :
    (particion ventas clientes s).map (fun r => r.fila.total_ventas)
      = ((merged ventas clientes).filter fun r => r.segmento == some s).map
          Fusionada.total_ventas := by
  rw [particion_eq, List.map_map]
  rfl

/-- C2: within every segment partition of the ranked table, rank 1 is
held exactly by the rows of maximal `total_ventas`, equal totals get
equal ranks, and the set of ranks assigned is exactly `{1, …, m}` for
`m` the number of distinct totals in the partition. -/
theorem c2_rank_denso_invariante (ventas : List VentaAgregada)
    (clientes : List Cliente) (s : String) :
    (∀ r ∈ particion ventas clientes s,
        (r.rank_ventas = some 1 ↔
          ∀ r2 ∈ particion ventas clientes s,
            r2.fila.total_ventas ≤ r.fila.total_ventas))
    ∧ (∀ r1 ∈ particion ventas clientes s, ∀ r2 ∈ particion ventas clientes s,
        r1.fila.total_ventas = r2.fila.total_ventas →
          r1.rank_ventas = r2.rank_ventas)
    ∧ (∀ k : ℕ, (∃ r ∈ particion ventas clientes s, r.rank_ventas = some k) ↔
        (1 ≤ k ∧ k ≤ ((particion ventas clientes s).map
            (fun r => r.fila.total_ventas)).dedup.length)) := by
  have hpart := particion_eq ventas clientes s
  have htot := totales_particion ventas clientes s
  set P := (merged ventas clientes).filter fun r => r.segmento == some s with hP
  set T := P.map Fusionada.total_ventas with hT
  refine ⟨?_, ?_, ?_⟩
  · intro r hr
    rw [hpart] at hr
    rcases List.mem_map.mp hr with ⟨a, ha, rfl⟩
    simp only [Option.some_inj]
    rw [rank_denso_eq_one]
    constructor
    · intro h r2 hr2
      rw [hpart] at hr2
      rcases List.mem_map.mp hr2 with ⟨b, hb, rfl⟩
      exact h b.total_ventas (List.mem_map.mpr ⟨b, hb, rfl⟩)
    · intro h y hy
      rcases List.mem_map.mp hy with ⟨b, hb, rfl⟩
      have hmem : (⟨b, some (rank_denso T b.total_ventas)⟩ : Clasificada)
          ∈ particion ventas clientes s := by
        rw [hpart]
        exact List.mem_map.mpr ⟨b, hb, rfl⟩
      exact h _ hmem
  · intro r1 hr1 r2 hr2 heq
    rw [hpart] at hr1 hr2
    rcases List.mem_map.mp hr1 with ⟨a, ha, rfl⟩
    rcases List.mem_map.mp hr2 with ⟨b, hb, rfl⟩
    simp only at heq ⊢
    rw [heq]
  · intro k
    rw [htot]
    constructor
    · rintro ⟨r, hr, hrk⟩
      rw [hpart] at hr
      rcases List.mem_map.mp hr with ⟨a, ha, rfl⟩
      simp only [Option.some_inj] at hrk
      exact (rank_denso_surj T k).mp ⟨a.total_ventas, List.mem_map.mpr ⟨a, ha, rfl⟩, hrk⟩
    · intro hk
      rcases (rank_denso_surj T k).mpr hk with ⟨x, hx, hxk⟩
      rcases List.mem_map.mp hx with ⟨a, ha, rfl⟩
      refine ⟨⟨a, some (rank_denso T a.total_ventas)⟩, ?_, ?_⟩
      · rw [hpart]
        exact List.mem_map.mpr ⟨a, ha, rfl⟩
      · simpa using hxk
